import Mathlib

/-!
Verification of the LAWAgent client logic (witness-candidate search, filter
and save workflow, tab controller, issue-spotter rendering) against its
natural-language specification.  The definitions below are a shallow
embedding of the JavaScript sources
`app/static/assets/js/witness-finder.js`, `app/static/assets/js/issue-spotter.js`
and the shared UI controller: JS strings become `String`, JS numbers used in
comparisons become `Int`, optional or possibly-missing fields become
`Option` or use the empty string as the falsy default, JS `Map` becomes an
association list with unique keys, and each `async` handler becomes a pure
function of the fetch outcome.
-/

/-- Candidate record as consumed by the witness-finder frontend.  Optional
display strings use the empty string for the JS falsy default; a missing
`years_experience` is `none`. -/
structure Candidate where
  id : String
  name : String
  title : String
  organization : String
  sector : String
  location : String
  years_experience : Option Int
  similarity_score : Int
  summary : String
  skills : List String
  links : List String
  sources : List String
  deriving DecidableEq, Repr

/-- Model of JS `String.prototype.toLowerCase` (per-character lowering). -/
def jsToLower (s : String) : String := String.mk (s.data.map Char.toLower)

/-- Model of JS `String.prototype.includes`: substring containment. -/
def jsIncludes (hay needle : String) : Bool := decide (needle.data <:+: hay.data)

/-- Model of JS `String.prototype.trim`: drop leading and trailing
whitespace. -/
def jsTrim (s : String) : String :=
  String.mk (((s.data.dropWhile Char.isWhitespace).reverse.dropWhile
    Char.isWhitespace).reverse)

/-- Embedding of `applyFilters` from `witness-finder.js` (lines 265-281):
filter the result set by the similarity threshold, the experience threshold
(missing `years_experience` coerced to 0), and trimmed, lower-cased sector
and location substring queries (an empty query matches everything). -/
def applyFilters (results : List Candidate) (minSimilarity minExperience : Int)
    (sectorValue locationValue : String) : List Candidate :=
  let sectorQuery := jsToLower (jsTrim sectorValue)
  let locationQuery := jsToLower (jsTrim locationValue)
  results.filter fun candidate =>
    !(decide (candidate.similarity_score < minSimilarity)) &&
    !(decide (candidate.years_experience.getD 0 < minExperience)) &&
    (sectorQuery == "" || jsIncludes (jsToLower candidate.sector) sectorQuery) &&
    (locationQuery == "" || jsIncludes (jsToLower candidate.location) locationQuery)

theorem jsToLower_eq_empty_iff (s : String) : jsToLower s = "" ↔ s = "" := by
  constructor
  · intro h
    have hdata : s.data.map Char.toLower = ([] : List Char) := congrArg String.data h
    have : s.data = [] := by
      cases hs : s.data with
      | nil => rfl
      | cons a l => rw [hs] at hdata; simp at hdata
    exact String.ext this
  · intro h; subst h; rfl

/-- C1: for every result set and every filter parameter combination,
`applyFilters` produces a subsequence of the result set, and a candidate is a
member iff its similarity score meets `minSimilarity`, its years of
experience (missing treated as 0) meet `minExperience`, and the trimmed
sector and location filters are empty or case-insensitively contained in the
corresponding candidate field. -/
theorem C1_applyFilters_spec (results : List Candidate)
    (minSimilarity minExperience : Int) (sectorValue locationValue : String) :
    (applyFilters results minSimilarity minExperience sectorValue locationValue).Sublist
      results ∧
    ∀ c, c ∈ applyFilters results minSimilarity minExperience sectorValue locationValue ↔
      c ∈ results ∧
      minSimilarity ≤ c.similarity_score ∧
      minExperience ≤ c.years_experience.getD 0 ∧
      (jsTrim sectorValue = "" ∨
        (jsToLower (jsTrim sectorValue)).data <:+: (jsToLower c.sector).data) ∧
      (jsTrim locationValue = "" ∨
        (jsToLower (jsTrim locationValue)).data <:+: (jsToLower c.location).data) := by
  refine ⟨List.filter_sublist _, fun c => ?_⟩
  simp only [applyFilters, List.mem_filter, Bool.and_eq_true, Bool.not_eq_true',
    Bool.or_eq_true, beq_iff_eq, decide_eq_false_iff_not, not_lt, jsIncludes,
    decide_eq_true_eq, jsToLower_eq_empty_iff, and_assoc]

/-- Scenario candidates from the testable-properties section of the spec. -/
def scenarioA : Candidate :=
  ⟨"a", "A", "", "", "Pharma", "NY", some 5, 90, "", [], [], []⟩

/-- Second scenario candidate. -/
def scenarioB : Candidate :=
  ⟨"b", "B", "", "", "Tech", "CA", some 1, 40, "", [], [], []⟩

/-- Witness for C1: on the scenario result set from the spec, with
`minSimilarity = 50`, only candidate `a` passes the filter. -/
theorem C1_applyFilters_spec_witness :
    scenarioA ∈ applyFilters [scenarioA, scenarioB] 50 0 "" "" ∧
      scenarioB ∉ applyFilters [scenarioA, scenarioB] 50 0 "" "" := by
  constructor
  · exact ((C1_applyFilters_spec [scenarioA, scenarioB] 50 0 "" "").2
        scenarioA).mpr
      (by refine ⟨by decide, by decide, by decide, Or.inl (by decide),
        Or.inl (by decide)⟩)
  · intro hmem
    have h := ((C1_applyFilters_spec [scenarioA, scenarioB] 50 0 "" "").2
      scenarioB).mp hmem
    have : (50 : Int) ≤ 40 := h.2.1
    exact absurd this (by decide)

/-- The local saved-candidate cache: JS `Map` keyed by candidate id, kept as
an association list in insertion order. -/
abbrev SavedCache := List (String × Candidate)

/-- Model of `Map.prototype.has`. -/
def mapHas (m : SavedCache) (k : String) : Bool := m.any (fun e => e.1 == k)

/-- Model of `Map.prototype.get`. -/
def mapGet (m : SavedCache) (k : String) : Option Candidate :=
  (m.find? (fun e => e.1 == k)).map Prod.snd

/-- Model of `Map.prototype.set`: replace the value at an existing key in
place, otherwise append a fresh entry. -/
def mapSet (m : SavedCache) (k : String) (v : Candidate) : SavedCache :=
  if m.any (fun e => e.1 == k) then
    m.map (fun e => if e.1 == k then (k, v) else e)
  else m ++ [(k, v)]

/-- Model of `Map.prototype.delete`: remove the entry at the key. -/
def mapDelete (m : SavedCache) (k : String) : SavedCache :=
  m.filter (fun e => !(e.1 == k))

/-- Well-formedness of the saved cache: unique keys, each mapping to a
candidate whose own `id` is that key. -/
def cacheWF (m : SavedCache) : Prop :=
  (m.map Prod.fst).Nodup ∧ ∀ e ∈ m, e.2.id = e.1

instance (m : SavedCache) : Decidable (cacheWF m) := by
  unfold cacheWF; infer_instance

/-- Rendered state of a per-candidate action button. -/
structure BtnState where
  label : String
  disabled : Bool
  deriving DecidableEq, Repr

/-- Outcome of a `fetch` call as observed by an `async` handler: either the
promise rejected (network error / thrown exception), or a response arrived
with an `ok` flag and an optional `status` field in its JSON body. -/
inductive FetchOutcome where
  | failure
  | response (ok : Bool) (status : Option String)
  deriving DecidableEq, Repr

/-- Result of one `handleSave` run: the new cache, the button state (the
handler may be given no button), the toast message, whether the error was
logged to the console, and whether the saved list was re-rendered. -/
structure SaveResult where
  cache : SavedCache
  button : Option BtnState
  toast : String
  logged : Bool
  savedRendered : Bool
  deriving DecidableEq, Repr

/-- Embedding of `handleSave` from `witness-finder.js` (lines 283-307): on a
2xx response the candidate is inserted into the cache keyed by its id, the
toast distinguishes the `duplicate` status, and the button becomes a disabled
`Saved` control; a network failure or non-2xx response only logs and shows a
failure toast. -/
def handleSave (candidate : Candidate) (cache : SavedCache)
    (button : Option BtnState) (resp : FetchOutcome) : SaveResult :=
  match resp with
  | .failure => ⟨cache, button, "Unable to save candidate.", true, false⟩
  | .response ok status =>
    if ok then
      ⟨mapSet cache candidate.id candidate,
        button.map (fun _ => ⟨"Saved", true⟩),
        if status == some "duplicate" then "Already saved." else "Candidate saved.",
        false, true⟩
    else ⟨cache, button, "Unable to save candidate.", true, false⟩

/-- Result of one `handleDelete` run: the new cache, the toast (if any),
whether the saved list was re-rendered and the filters re-applied, and
whether an error was logged. -/
structure DeleteResult where
  cache : SavedCache
  toast : Option String
  savedRendered : Bool
  filtersReapplied : Bool
  logged : Bool
  deriving DecidableEq, Repr

/-- Embedding of `handleDelete` from `witness-finder.js` (lines 309-326):
only a 2xx response whose body status is exactly `ok` removes the entry and
re-renders; a network failure or non-2xx response logs and shows a failure
toast; a 2xx response with any other status does nothing at all. -/
def handleDelete (cache : SavedCache) (candidateId : String)
    (resp : FetchOutcome) : DeleteResult :=
  match resp with
  | .failure => ⟨cache, some "Unable to remove candidate.", false, false, true⟩
  | .response ok status =>
    if ok then
      if status == some "ok" then
        ⟨mapDelete cache candidateId, some "Removed from saved.", true, true, false⟩
      else ⟨cache, none, false, false, false⟩
    else ⟨cache, some "Unable to remove candidate.", false, false, true⟩

/-- Embedding of the cache mutation performed by `fetchSaved` in
`witness-finder.js` (lines 376-390): each array entry that is non-null and
has a truthy `id` is inserted into the cache keyed by that id. -/
def fetchSaved (cache : SavedCache) (entries : List (Option Candidate)) : SavedCache :=
  entries.foldl
    (fun m oc =>
      match oc with
      | some c => if c.id ≠ "" then mapSet m c.id c else m
      | none => m)
    cache

/-- Rendering of the save button by `renderResults` (lines 230-236): the
button reads `Saved` and is disabled exactly when the candidate id is already
in the saved cache. -/
def renderButton (cache : SavedCache) (candidate : Candidate) : BtnState :=
  if mapHas cache candidate.id then ⟨"Saved", true⟩ else ⟨"Save", false⟩

/-- Event-loop state for the per-candidate save workflow: the cache, the
rendered save button, the number of save requests currently in flight, and
the total number of save requests dispatched. -/
structure SaveMachine where
  cache : SavedCache
  button : BtnState
  inFlight : Nat
  requestsSent : Nat
  deriving DecidableEq, Repr

/-- Events the save workflow reacts to: a click on the save control, or the
arrival of a fetch outcome for an outstanding request. -/
inductive SaveEvent where
  | click
  | outcome (resp : FetchOutcome)
  deriving DecidableEq, Repr

/-- One event-loop step of the save workflow for a fixed candidate.  A click
on a disabled control fires nothing; a click on an enabled control dispatches
the save request immediately (the `handleSave` body up to its `await` runs
synchronously and mutates nothing).  A fetch outcome resumes `handleSave`
after the `await`. -/
def saveStep (candidate : Candidate) (s : SaveMachine) (e : SaveEvent) : SaveMachine :=
  match e with
  | .click =>
    if s.button.disabled then s
    else { s with inFlight := s.inFlight + 1, requestsSent := s.requestsSent + 1 }
  | .outcome resp =>
    if s.inFlight = 0 then s
    else
      let r := handleSave candidate s.cache (some s.button) resp
      { cache := r.cache, button := r.button.getD s.button,
        inFlight := s.inFlight - 1, requestsSent := s.requestsSent }

/-- Run of the save workflow over a list of events. -/
def saveRun (candidate : Candidate) (s : SaveMachine) (es : List SaveEvent) : SaveMachine :=
  es.foldl (saveStep candidate) s

/-- Sample candidate used for concrete instantiations. -/
def sampleA : Candidate :=
  ⟨"a", "Dr. A", "", "", "Pharma", "NY", some 5, 90, "", [], [], []⟩

theorem mapSet_mem {m : SavedCache} {k : String} {v : Candidate}
    {e : String × Candidate} (h : e ∈ mapSet m k v) : e ∈ m ∨ e = (k, v) := by
  unfold mapSet at h
  split at h
  · rcases List.mem_map.mp h with ⟨e₀, he₀, hge⟩
    by_cases hk : (e₀.1 == k) = true
    · right; rw [if_pos hk] at hge; exact hge.symm
    · left; rw [if_neg hk] at hge; exact hge ▸ he₀
  · rcases List.mem_append.mp h with h | h
    · exact Or.inl h
    · right; simpa using h

theorem mapSet_keys_of_has {m : SavedCache} {k : String} (v : Candidate)
    (h : mapHas m k = true) : (mapSet m k v).map Prod.fst = m.map Prod.fst := by
  unfold mapHas at h
  unfold mapSet
  rw [if_pos h, List.map_map]
  refine List.map_congr_left fun e he => ?_
  by_cases hk : (e.1 == k) = true
  · simp only [Function.comp, if_pos hk]
    exact (beq_iff_eq.mp hk).symm
  · simp only [Function.comp, if_neg hk]

theorem cacheWF_mapSet {m : SavedCache} (v : Candidate) (hWF : cacheWF m) :
    cacheWF (mapSet m v.id v) := by
  obtain ⟨hnd, hval⟩ := hWF
  refine ⟨?_, fun e he => ?_⟩
  · by_cases h : mapHas m v.id = true
    · rw [mapSet_keys_of_has v h]; exact hnd
    · have h' : m.any (fun e => e.1 == v.id) = false := by
        unfold mapHas at h; exact Bool.not_eq_true _ ▸ eq_false_of_ne_true h
      unfold mapSet
      rw [if_neg (by rw [h']; exact Bool.false_ne_true), List.map_append]
      refine List.nodup_append.mpr ⟨hnd, List.nodup_singleton _, ?_⟩
      intro x hx hx'
      simp only [List.map_cons, List.map_nil, List.mem_singleton] at hx'
      rcases List.mem_map.mp hx with ⟨e, he, hfst⟩
      have hne := List.any_eq_false.mp h' e he
      simp only [beq_iff_eq] at hne
      exact hne (hfst.trans hx')
  · rcases mapSet_mem he with he | he
    · exact hval e he
    · rw [he]

theorem cacheWF_mapDelete {m : SavedCache} (k : String) (hWF : cacheWF m) :
    cacheWF (mapDelete m k) := by
  obtain ⟨hnd, hval⟩ := hWF
  exact ⟨((List.filter_sublist m).map Prod.fst).nodup hnd,
    fun e he => hval e (List.mem_filter.mp he).1⟩

theorem mapSet_get_self {m : SavedCache} {c : Candidate}
    (hWF : cacheWF m) (h : mapGet m c.id = some c) : mapSet m c.id c = m := by
  obtain ⟨hnd, hval⟩ := hWF
  unfold mapGet at h
  rcases hfind : m.find? (fun e => e.1 == c.id) with _ | e
  · rw [hfind] at h; exact absurd h (by simp)
  · rw [hfind] at h
    simp only [Option.map_some', Option.some.injEq] at h
    have hmem := List.mem_of_find?_eq_some hfind
    have hkey : e.1 = c.id := by
      have := List.find?_some hfind; simpa using this
    have hany : m.any (fun e => e.1 == c.id) = true :=
      List.any_eq_true.mpr ⟨e, hmem, by simp [hkey]⟩
    unfold mapSet
    rw [if_pos hany]
    have hpt : ∀ e' ∈ m, (if e'.1 == c.id then (c.id, c) else e') = e' := by
      intro e' he'
      by_cases hk : (e'.1 == c.id) = true
      · rw [if_pos hk]
        have heq : e' = e :=
          List.inj_on_of_nodup_map hnd he' hmem (by rw [beq_iff_eq.mp hk, hkey])
        rw [heq]
        cases e
        simp only [Prod.mk.injEq]
        exact ⟨hkey.symm, h.symm⟩
      · rw [if_neg hk]
    rw [List.map_congr_left hpt]
    exact List.map_id m

theorem fetchSaved_wf_aux (entries : List (Option Candidate)) :
    ∀ m : SavedCache, cacheWF m →
      cacheWF (fetchSaved m entries) ∧
      ∀ e ∈ fetchSaved m entries, e ∈ m ∨ e.1 ≠ "" := by
  induction entries with
  | nil => exact fun m hWF => ⟨hWF, fun e he => Or.inl he⟩
  | cons oc es ih =>
    intro m hWF
    have hcons : fetchSaved m (oc :: es) =
        fetchSaved
          (match oc with
           | some c => if c.id ≠ "" then mapSet m c.id c else m
           | none => m) es := rfl
    rcases oc with _ | c
    · rw [hcons]; exact ih m hWF
    · by_cases hid : c.id ≠ ""
      · rw [hcons]
        simp only [if_pos hid]
        obtain ⟨hWF2, hmem2⟩ := ih (mapSet m c.id c) (cacheWF_mapSet c hWF)
        refine ⟨hWF2, fun e he => ?_⟩
        rcases hmem2 e he with he2 | he2
        · rcases mapSet_mem he2 with he3 | he3
          · exact Or.inl he3
          · right; rw [he3]; exact hid
        · exact Or.inr he2
      · rw [hcons]
        simp only [if_neg hid]
        exact ih m hWF

/-- C3 counterexample: starting from a fresh render of an unsaved candidate,
two clicks on the save control before any response arrives dispatch the save
request twice, and while both requests are in flight the control is still
enabled — so the claim that the control is disabled during the `saving` state
and that the request is never sent twice fails on the code. -/
theorem C3_counterexample :
    (saveRun sampleA ⟨[], renderButton [] sampleA, 0, 0⟩ [.click, .click]).requestsSent
        = 2 ∧
    0 < (saveRun sampleA ⟨[], renderButton [] sampleA, 0, 0⟩ [.click, .click]).inFlight ∧
    (saveRun sampleA ⟨[], renderButton [] sampleA, 0, 0⟩
        [.click, .click]).button.disabled = false := by
  decide

/-- C3 as amended: the save control is not disabled while a save request is
in flight — a second click on the still-enabled control dispatches the
request a second time; a disabled control ignores clicks, and the control
only becomes disabled once a save response succeeds. -/
theorem C3_save_control_amended (candidate : Candidate) (s : SaveMachine) :
    (s.button.disabled = true → saveStep candidate s .click = s) ∧
    (s.button.disabled = false →
      (saveStep candidate s .click).requestsSent = s.requestsSent + 1 ∧
      (saveStep candidate s .click).button = s.button ∧
      (saveStep candidate (saveStep candidate s .click) .click).requestsSent =
        s.requestsSent + 2) ∧
    (0 < s.inFlight → ∀ status,
      (saveStep candidate s
        (.outcome (.response true status))).button.disabled = true) := by
  refine ⟨fun h => ?_, fun h => ?_, fun h status => ?_⟩
  · simp [saveStep, h]
  · simp [saveStep, h]
  · have hne : ¬ s.inFlight = 0 := Nat.pos_iff_ne_zero.mp h
    simp [saveStep, handleSave, hne]

/-- Witness for the amended C3 at a concrete enabled button. -/
theorem C3_save_control_amended_witness :
    (saveStep sampleA ⟨[], ⟨"Save", false⟩, 0, 0⟩ .click).requestsSent = 1 ∧
    (saveStep sampleA (saveStep sampleA ⟨[], ⟨"Save", false⟩, 0, 0⟩ .click)
        .click).requestsSent = 2 :=
  ⟨((C3_save_control_amended sampleA ⟨[], ⟨"Save", false⟩, 0, 0⟩).2.1 rfl).1,
   ((C3_save_control_amended sampleA ⟨[], ⟨"Save", false⟩, 0, 0⟩).2.1 rfl).2.2⟩

/-- C4: when the save request fails on the network or returns a non-2xx
response, the cache is untouched, the button is untouched (so an enabled
control stays enabled), the failure toast is shown, the error is logged, and
the saved list is not re-rendered. -/
theorem C4_handleSave_failure (candidate : Candidate) (cache : SavedCache)
    (button : Option BtnState) (resp : FetchOutcome)
    (h : resp = .failure ∨ ∃ status, resp = .response false status) :
    (handleSave candidate cache button resp).cache = cache ∧
    (handleSave candidate cache button resp).button = button ∧
    (handleSave candidate cache button resp).toast = "Unable to save candidate." ∧
    (handleSave candidate cache button resp).logged = true ∧
    (handleSave candidate cache button resp).savedRendered = false := by
  rcases h with h | ⟨st, h⟩ <;> subst h <;> simp [handleSave]

/-- Witness for C4 at a concrete failing request. -/
theorem C4_handleSave_failure_witness :
    (handleSave sampleA [] (some ⟨"Save", false⟩) .failure).cache = [] ∧
    (handleSave sampleA [] (some ⟨"Save", false⟩) .failure).button
      = some ⟨"Save", false⟩ ∧
    (handleSave sampleA [] (some ⟨"Save", false⟩) .failure).toast
      = "Unable to save candidate." ∧
    (handleSave sampleA [] (some ⟨"Save", false⟩) .failure).logged = true ∧
    (handleSave sampleA [] (some ⟨"Save", false⟩) .failure).savedRendered = false :=
  C4_handleSave_failure sampleA [] (some ⟨"Save", false⟩) .failure (Or.inl rfl)

/-- C5: saving an already-saved candidate with a `duplicate` backend status
is idempotent on the cache (the entry is not duplicated and the cache is
unchanged), does not error, and behaves exactly like a plain success except
that the toast reads `Already saved.` instead of `Candidate saved.`. -/
theorem C5_handleSave_duplicate (candidate : Candidate) (cache : SavedCache)
    (button : Option BtnState) (hWF : cacheWF cache)
    (hmem : mapGet cache candidate.id = some candidate) :
    (handleSave candidate cache button (.response true (some "duplicate"))).cache
        = cache ∧
    (handleSave candidate cache button (.response true (some "duplicate"))).toast
        = "Already saved." ∧
    (handleSave candidate cache button
        (.response true (some "duplicate"))).logged = false ∧
    ∀ status, status ≠ some "duplicate" →
      (handleSave candidate cache button (.response true status)).cache = cache ∧
      (handleSave candidate cache button (.response true status)).button =
        (handleSave candidate cache button
          (.response true (some "duplicate"))).button ∧
      (handleSave candidate cache button (.response true status)).savedRendered =
        (handleSave candidate cache button
          (.response true (some "duplicate"))).savedRendered ∧
      (handleSave candidate cache button (.response true status)).logged = false ∧
      (handleSave candidate cache button (.response true status)).toast
        = "Candidate saved." := by
  have hset := mapSet_get_self hWF hmem
  refine ⟨by simp [handleSave, hset], by simp [handleSave], by simp [handleSave],
    fun status hst => ?_⟩
  have hbeq : (status == some "duplicate") = false := by
    rw [beq_eq_false_iff_ne]; exact hst
  simp [handleSave, hset, hbeq]

/-- Witness for C5 at a concrete already-saved candidate. -/
theorem C5_handleSave_duplicate_witness :
    (handleSave sampleA [("a", sampleA)] none
        (.response true (some "duplicate"))).cache = [("a", sampleA)] ∧
    (handleSave sampleA [("a", sampleA)] none
        (.response true (some "duplicate"))).toast = "Already saved." ∧
    (handleSave sampleA [("a", sampleA)] none (.response true (some "ok"))).toast
      = "Candidate saved." := by
  have h := C5_handleSave_duplicate sampleA [("a", sampleA)] none
    (by decide) (by decide)
  exact ⟨h.1, h.2.1, (h.2.2.2 (some "ok") (by decide)).2.2.2.2⟩

/-- C6 counterexample: a 2xx delete response whose status is not `ok` leaves
the cache untouched but shows no toast at all, contradicting the claim that
every non-removal outcome shows a failure toast. -/
theorem C6_counterexample :
    (handleDelete [("a", sampleA)] "a" (.response true (some "error"))).cache
        = [("a", sampleA)] ∧
    (handleDelete [("a", sampleA)] "a" (.response true (some "error"))).toast
        = none := by
  decide

/-- C6 as amended: the entry is removed from the cache iff the response is a
2xx with status exactly `ok` (and then the saved list is re-rendered and the
filters re-applied); a network failure or non-2xx response leaves the cache
untouched, logs, and shows the failure toast; a 2xx response with any other
status leaves the cache untouched and shows no toast. -/
theorem C6_handleDelete_amended (cache : SavedCache) (candidateId : String)
    (resp : FetchOutcome) :
    ((handleDelete cache candidateId resp).cache =
      if resp = .response true (some "ok") then mapDelete cache candidateId
      else cache) ∧
    (resp = .response true (some "ok") →
      (handleDelete cache candidateId resp).toast = some "Removed from saved." ∧
      (handleDelete cache candidateId resp).savedRendered = true ∧
      (handleDelete cache candidateId resp).filtersReapplied = true) ∧
    ((resp = .failure ∨ ∃ st, resp = .response false st) →
      (handleDelete cache candidateId resp).toast
          = some "Unable to remove candidate." ∧
      (handleDelete cache candidateId resp).logged = true ∧
      (handleDelete cache candidateId resp).savedRendered = false ∧
      (handleDelete cache candidateId resp).filtersReapplied = false) ∧
    (∀ st, st ≠ some "ok" → resp = .response true st →
      (handleDelete cache candidateId resp).toast = none ∧
      (handleDelete cache candidateId resp).savedRendered = false ∧
      (handleDelete cache candidateId resp).filtersReapplied = false ∧
      (handleDelete cache candidateId resp).logged = false) := by
  rcases resp with _ | ⟨ok, status⟩
  · refine ⟨by simp [handleDelete], by simp, fun _ => by simp [handleDelete],
      fun st _ h => by cases h⟩
  · rcases ok with _ | _
    · refine ⟨by simp [handleDelete], by simp, fun _ => by simp [handleDelete],
        fun st _ h => by cases h⟩
    · by_cases hst : status = some "ok"
      · subst hst
        refine ⟨by simp [handleDelete], fun _ => by simp [handleDelete], ?_, ?_⟩
        · rintro (h | ⟨st, h⟩) <;> cases h
        · intro st hne h
          injection h with _ h2
          exact absurd h2.symm hne
      · have hbeq : (status == some "ok") = false := by
          rw [beq_eq_false_iff_ne]; exact hst
        refine ⟨by simp [handleDelete, hbeq, hst], fun h => ?_, ?_, ?_⟩
        · injection h with _ h2; exact absurd h2 hst
        · rintro (h | ⟨st, h⟩) <;> cases h
        · intro st hne h
          simp [handleDelete, hbeq]

/-- Witness for the amended C6: a successful `ok` delete removes the entry,
and a network failure shows the failure toast. -/
theorem C6_handleDelete_amended_witness :
    (handleDelete [("a", sampleA)] "a" (.response true (some "ok"))).cache = [] ∧
    (handleDelete [("a", sampleA)] "a" .failure).toast
      = some "Unable to remove candidate." := by
  constructor
  · have h := (C6_handleDelete_amended [("a", sampleA)] "a"
      (.response true (some "ok"))).1
    rw [if_pos rfl] at h
    exact h.trans (by decide)
  · exact ((C6_handleDelete_amended [("a", sampleA)] "a" .failure).2.2.1
      (Or.inl rfl)).1

/-- C10: the saved-cache invariant — unique keys, each key mapping to a
candidate whose id is that key — is preserved by `handleSave`, `handleDelete`
and the `fetchSaved` population, and `fetchSaved` only ever inserts entries
with a non-empty id. -/
theorem C10_cache_invariant (candidate : Candidate) (cache : SavedCache)
    (button : Option BtnState) (resp : FetchOutcome) (candidateId : String)
    (entries : List (Option Candidate)) (hWF : cacheWF cache) :
    cacheWF (handleSave candidate cache button resp).cache ∧
    cacheWF (handleDelete cache candidateId resp).cache ∧
    cacheWF (fetchSaved cache entries) ∧
    ∀ e ∈ fetchSaved cache entries, e ∈ cache ∨ e.1 ≠ "" := by
  refine ⟨?_, ?_, (fetchSaved_wf_aux entries cache hWF).1,
    (fetchSaved_wf_aux entries cache hWF).2⟩
  · rcases resp with _ | ⟨ok, status⟩
    · exact hWF
    · rcases ok with _ | _
      · simpa [handleSave] using hWF
      · simpa [handleSave] using cacheWF_mapSet candidate hWF
  · rcases resp with _ | ⟨ok, status⟩
    · exact hWF
    · rcases ok with _ | _
      · simpa [handleDelete] using hWF
      · by_cases hst : status = some "ok"
        · subst hst
          simpa [handleDelete] using cacheWF_mapDelete candidateId hWF
        · have hbeq : (status == some "ok") = false := by
            rw [beq_eq_false_iff_ne]; exact hst
          simpa [handleDelete, hbeq] using hWF

/-- Witness for C10 at a concrete well-formed cache. -/
theorem C10_cache_invariant_witness :
    cacheWF (handleSave sampleA [] none (.response true none)).cache ∧
    cacheWF (fetchSaved [] [some sampleA, none]) :=
  ⟨(C10_cache_invariant sampleA [] none (.response true none) "a"
      [some sampleA, none] (by decide)).1,
   (C10_cache_invariant sampleA [] none (.response true none) "a"
      [some sampleA, none] (by decide)).2.2.1⟩

/-- The apostrophe character escaped by `escapeHtml`. -/
def apos : Char := Char.ofNat 39

/-- Model of a global single-character JS regex replace: every occurrence of
the target character is replaced by the replacement text. -/
def replaceAllChar (t : Char) (r : List Char) : List Char → List Char
  | [] => []
  | c :: cs => (if c = t then r else [c]) ++ replaceAllChar t r cs

/-- The five replacement passes of `escapeHtml` from `issue-spotter.js`
(lines 222-230), applied in source order: ampersand first, then the angle
brackets, then the quotes. -/
def escapeAll (l : List Char) : List Char :=
  replaceAllChar apos "&#039;".data
    (replaceAllChar '"' "&quot;".data
      (replaceAllChar '>' "&gt;".data
        (replaceAllChar '<' "&lt;".data
          (replaceAllChar '&' "&amp;".data l))))

/-- Embedding of `escapeHtml` from `issue-spotter.js` (lines 222-230). -/
def escapeHtml (s : String) : String := String.mk (escapeAll s.data)

/-- Per-character escaping table: each of the five special characters maps to
its HTML entity, every other character to itself. -/
def escapeChar (c : Char) : List Char :=
  if c = '&' then "&amp;".data
  else if c = '<' then "&lt;".data
  else if c = '>' then "&gt;".data
  else if c = '"' then "&quot;".data
  else if c = apos then "&#039;".data
  else [c]

/-- Character-by-character specification of HTML escaping. -/
def escapeSpec : List Char → List Char
  | [] => []
  | c :: cs => escapeChar c ++ escapeSpec cs

theorem replaceAllChar_append (t : Char) (r l₁ l₂ : List Char) :
    replaceAllChar t r (l₁ ++ l₂) =
      replaceAllChar t r l₁ ++ replaceAllChar t r l₂ := by
  induction l₁ with
  | nil => rfl
  | cons c cs ih => simp [replaceAllChar, ih]

theorem escapeAll_append (l₁ l₂ : List Char) :
    escapeAll (l₁ ++ l₂) = escapeAll l₁ ++ escapeAll l₂ := by
  simp [escapeAll, replaceAllChar_append]

theorem escapeAll_single (c : Char) : escapeAll [c] = escapeChar c := by
  by_cases h1 : c = '&'
  · subst h1; decide
  by_cases h2 : c = '<'
  · subst h2; decide
  by_cases h3 : c = '>'
  · subst h3; decide
  by_cases h4 : c = '"'
  · subst h4; decide
  by_cases h5 : c = apos
  · subst h5; decide
  simp [escapeAll, replaceAllChar, escapeChar, h1, h2, h3, h4, h5]

theorem escapeAll_eq_escapeSpec (l : List Char) : escapeAll l = escapeSpec l := by
  induction l with
  | nil => rfl
  | cons c cs ih =>
    have hsplit : escapeAll (c :: cs) = escapeAll [c] ++ escapeAll cs :=
      escapeAll_append [c] cs
    rw [hsplit, escapeAll_single, ih]
    rfl

theorem mem_escapeChar {x c : Char} (hx : x ∈ escapeChar c) :
    x ≠ '<' ∧ x ≠ '>' ∧ x ≠ '"' ∧ x ≠ apos := by
  unfold escapeChar at hx
  split_ifs at hx with h1 h2 h3 h4 h5
  · rw [show "&amp;".data = ['&', 'a', 'm', 'p', ';'] from rfl] at hx
    fin_cases hx <;> decide
  · rw [show "&lt;".data = ['&', 'l', 't', ';'] from rfl] at hx
    fin_cases hx <;> decide
  · rw [show "&gt;".data = ['&', 'g', 't', ';'] from rfl] at hx
    fin_cases hx <;> decide
  · rw [show "&quot;".data = ['&', 'q', 'u', 'o', 't', ';'] from rfl] at hx
    fin_cases hx <;> decide
  · rw [show "&#039;".data = ['&', '#', '0', '3', '9', ';'] from rfl] at hx
    fin_cases hx <;> decide
  · rw [List.mem_singleton] at hx
    subst hx
    exact ⟨h2, h3, h4, h5⟩

theorem mem_escapeSpec {x : Char} {l : List Char} (hx : x ∈ escapeSpec l) :
    x ≠ '<' ∧ x ≠ '>' ∧ x ≠ '"' ∧ x ≠ apos := by
  induction l with
  | nil => cases hx
  | cons c cs ih =>
    rcases List.mem_append.mp hx with h | h
    · exact mem_escapeChar h
    · exact ih h

theorem count_lt_escapeHtml (s : String) : (escapeHtml s).data.count '<' = 0 := by
  rw [List.count_eq_zero]
  intro hmem
  have hmem2 : '<' ∈ escapeAll s.data := hmem
  rw [escapeAll_eq_escapeSpec s.data] at hmem2
  exact (mem_escapeSpec hmem2).1 rfl

/-- Character span attached to a finding; `stop` models the `end` field of
the JSON payload.  The JS truthiness checks make 0 behave as absent. -/
structure SpanInfo where
  page : Nat
  start : Nat
  stop : Nat
  deriving DecidableEq, Repr

/-- Finding item of the issue-spotter response; empty strings model absent
or falsy fields. -/
structure FindingItem where
  issue : String
  risk : String
  suggestion : String
  span : Option SpanInfo
  deriving DecidableEq, Repr

/-- Citation item of the issue-spotter response. -/
structure CitationItem where
  page : Nat
  snippet : String
  deriving DecidableEq, Repr

/-- Markup assigned to the risk paragraph by `renderFindings`
(`issue-spotter.js` lines 141-145). -/
def riskHtml (item : FindingItem) : String :=
  "<strong>Risk:</strong> " ++ escapeHtml item.risk

/-- Markup assigned to the suggestion paragraph by `renderFindings`
(lines 147-151). -/
def suggestionHtml (item : FindingItem) : String :=
  "<strong>Suggestion:</strong> " ++ escapeHtml item.suggestion

/-- Location label built for a finding span (lines 153-159). -/
def spanLabel (sp : SpanInfo) : String :=
  String.intercalate " • "
    ((if sp.page ≠ 0 then ["Page " ++ toString sp.page] else []) ++
     (if sp.start ≠ 0 ∨ sp.stop ≠ 0 then
       ["Chars " ++ (if sp.start = 0 then "?" else toString sp.start) ++ "-" ++
         (if sp.stop = 0 then "?" else toString sp.stop)]
      else []))

/-- Markup assigned to the span paragraph by `renderFindings` (line 160). -/
def spanHtml (sp : SpanInfo) : String :=
  "<strong>Span:</strong> " ++ escapeHtml (spanLabel sp)

/-- Paragraphs emitted for one finding by `renderFindings` (lines 126-166):
risk, suggestion and span paragraphs are emitted only when the corresponding
field is truthy. -/
def renderFinding (item : FindingItem) : List String :=
  (if item.risk ≠ "" then [riskHtml item] else []) ++
  (if item.suggestion ≠ "" then [suggestionHtml item] else []) ++
  (match item.span with
   | some sp =>
     if sp.page ≠ 0 ∨ sp.start ≠ 0 ∨ sp.stop ≠ 0 then [spanHtml sp] else []
   | none => [])

/-- Page label of a citation (`issue-spotter.js` line 178). -/
def pageLabel (item : CitationItem) : String :=
  if item.page ≠ 0 then "Page " ++ toString item.page else "Location"

/-- Markup assigned to one citation by `renderCitations` (lines 175-183). -/
def citationHtml (item : CitationItem) : String :=
  "<strong>" ++ escapeHtml (pageLabel item) ++ ":</strong> " ++
    escapeHtml item.snippet

/-- C7: `escapeHtml` replaces every occurrence of the five special characters
by its HTML entity (it coincides with the per-character escaping table), its
output never contains a raw angle bracket or quote, and every rendered risk,
suggestion, span and citation paragraph contains exactly the two `<` of its
fixed `<strong>` template — so no input value can inject markup. -/
theorem C7_escapeHtml_spec :
    (∀ s : String, (escapeHtml s).data = escapeSpec s.data) ∧
    (∀ (s : String) (c : Char), c ∈ (escapeHtml s).data →
      c ≠ '<' ∧ c ≠ '>' ∧ c ≠ '"' ∧ c ≠ apos) ∧
    (∀ item : FindingItem,
      (riskHtml item).data.count '<' = 2 ∧
      (suggestionHtml item).data.count '<' = 2) ∧
    (∀ sp : SpanInfo, (spanHtml sp).data.count '<' = 2) ∧
    (∀ item : CitationItem, (citationHtml item).data.count '<' = 2) := by
  have hdata : ∀ s : String, (escapeHtml s).data = escapeSpec s.data := by
    intro s
    show escapeAll s.data = escapeSpec s.data
    exact escapeAll_eq_escapeSpec s.data
  have hmem : ∀ (s : String) (c : Char), c ∈ (escapeHtml s).data →
      c ≠ '<' ∧ c ≠ '>' ∧ c ≠ '"' ∧ c ≠ apos := by
    intro s c hc
    rw [hdata s] at hc
    exact mem_escapeSpec hc
  refine ⟨hdata, hmem, fun item => ⟨?_, ?_⟩, fun sp => ?_, fun item => ?_⟩
  · rw [show riskHtml item = "<strong>Risk:</strong> " ++ escapeHtml item.risk
      from rfl, String.data_append, List.count_append, count_lt_escapeHtml]
    decide
  · rw [show suggestionHtml item =
      "<strong>Suggestion:</strong> " ++ escapeHtml item.suggestion from rfl,
      String.data_append, List.count_append, count_lt_escapeHtml]
    decide
  · rw [show spanHtml sp = "<strong>Span:</strong> " ++ escapeHtml (spanLabel sp)
      from rfl, String.data_append, List.count_append, count_lt_escapeHtml]
    decide
  · rw [show citationHtml item = "<strong>" ++ escapeHtml (pageLabel item) ++
      ":</strong> " ++ escapeHtml item.snippet from rfl]
    rw [String.data_append, String.data_append, String.data_append,
      List.count_append, List.count_append, List.count_append,
      count_lt_escapeHtml, count_lt_escapeHtml]
    decide

/-- Witness for C7 at a concrete hostile input. -/
theorem C7_escapeHtml_spec_witness :
    ((escapeHtml "<script>").data = escapeSpec "<script>".data) ∧
    (citationHtml ⟨0, "<script>"⟩).data.count '<' = 2 :=
  ⟨C7_escapeHtml_spec.1 "<script>", C7_escapeHtml_spec.2.2.2.2 ⟨0, "<script>"⟩⟩

/-- Payload of the witness search request built by `onSubmit`. -/
structure WitnessPayload where
  industry : String
  description : String
  name : Option String
  limit : Int
  deriving DecidableEq, Repr

/-- Observable result of a form submit handler: the request sent (if any),
the inline error shown (if any), and the element focus was moved to
(if any). -/
structure SubmitResult (α : Type) where
  request : Option α
  errorShown : Option String
  focused : Option String
  deriving DecidableEq, Repr

/-- Embedding of `onSubmit` from `witness-finder.js` (lines 418-431): a
submit while loading is ignored; a missing (trimmed-empty) industry or
description shows the form error and sends nothing — focus is not moved;
otherwise the search payload is sent with `limit` 8 and the optional name. -/
def onSubmit (loading : Bool) (industry description name : String) :
    SubmitResult WitnessPayload :=
  if loading then ⟨none, none, none⟩
  else
    let industryT := jsTrim industry
    let descriptionT := jsTrim description
    let nameT := jsTrim name
    if industryT = "" ∨ descriptionT = "" then
      ⟨none, some "Industry and description are required.", none⟩
    else
      ⟨some ⟨industryT, descriptionT,
        if nameT = "" then none else some nameT, 8⟩, none, none⟩

/-- Request built by the issue-spotter submit handler. -/
inductive IssueRequest where
  | upload (instructions : String) (style : Option String) (returnJson : Bool)
  | text (textValue instructions : String) (style : Option String)
      (returnJson : Bool)
  deriving DecidableEq, Repr

/-- Embedding of the issue-spotter form submit handler
(`issue-spotter.js` lines 22-42 and `submitAnalysis`): no file and no pasted
text reports inline and focuses the file input; missing instructions reports
inline and focuses the instructions input; otherwise the upload or text
request is sent. -/
def issueSubmit (hasFile : Bool) (textValue instructions style : String)
    (wantsJson : Bool) : SubmitResult IssueRequest :=
  let textT := jsTrim textValue
  let instructionsT := jsTrim instructions
  if ¬hasFile ∧ textT = "" then
    ⟨none, some "Upload a document or paste text to analyze.", some "fileInput"⟩
  else if instructionsT = "" then
    ⟨none, some "Instructions are required.", some "instructionsInput"⟩
  else if hasFile then
    ⟨some (.upload instructionsT (if style = "" then none else some style)
      wantsJson), none, none⟩
  else
    ⟨some (.text textT instructionsT (if style = "" then none else some style)
      wantsJson), none, none⟩

/-- C8 counterexample: the witness-finder handler rejects a submit with an
empty industry without sending a request and shows the inline error, but it
does not move focus to the offending field, contradicting the claim that
focus is moved for every missing-required-field validation error. -/
theorem C8_counterexample :
    (onSubmit false "" "facts" "").request = none ∧
    (onSubmit false "" "facts" "").errorShown
      = some "Industry and description are required." ∧
    (onSubmit false "" "facts" "").focused = none := by
  decide

/-- C8 as amended: a missing required field is caught before any network
request in both forms; the issue-spotter handler reports inline and moves
focus to the offending field, while the witness-finder handler reports the
inline form error without moving focus. -/
theorem C8_validation_amended (industry description name : String)
    (hasFile : Bool) (textValue instructions style : String) (wantsJson : Bool) :
    ((jsTrim industry = "" ∨ jsTrim description = "") →
      (onSubmit false industry description name).request = none ∧
      (onSubmit false industry description name).errorShown
        = some "Industry and description are required." ∧
      (onSubmit false industry description name).focused = none) ∧
    (¬hasFile ∧ jsTrim textValue = "" →
      (issueSubmit hasFile textValue instructions style wantsJson).request
        = none ∧
      (issueSubmit hasFile textValue instructions style wantsJson).errorShown
        = some "Upload a document or paste text to analyze." ∧
      (issueSubmit hasFile textValue instructions style wantsJson).focused
        = some "fileInput") ∧
    ((hasFile ∨ jsTrim textValue ≠ "") → jsTrim instructions = "" →
      (issueSubmit hasFile textValue instructions style wantsJson).request
        = none ∧
      (issueSubmit hasFile textValue instructions style wantsJson).errorShown
        = some "Instructions are required." ∧
      (issueSubmit hasFile textValue instructions style wantsJson).focused
        = some "instructionsInput") := by
  refine ⟨fun h => ?_, fun h => ?_, fun h hinstr => ?_⟩
  · simp only [onSubmit, if_neg (by simp : ¬false = true), if_pos h]
    exact ⟨trivial, trivial, trivial⟩
  · simp only [issueSubmit, if_pos h]
    exact ⟨trivial, trivial, trivial⟩
  · have hcond : ¬(¬hasFile ∧ jsTrim textValue = "") := by
      rcases h with h | h
      · intro hc; exact hc.1 (by simp [h])
      · intro hc; exact h hc.2
    simp only [issueSubmit, if_neg hcond, if_pos hinstr]
    exact ⟨trivial, trivial, trivial⟩

/-- Witness for the amended C8 at concrete inputs. -/
theorem C8_validation_amended_witness :
    (onSubmit false "" "facts" "").request = none ∧
    (issueSubmit false "" "check this" "" false).focused = some "fileInput" ∧
    (issueSubmit true "" "" "" false).focused = some "instructionsInput" :=
  ⟨((C8_validation_amended "" "facts" "" false "" "check this" "" false).1
      (Or.inl (by decide))).1,
   ((C8_validation_amended "" "facts" "" false "" "check this" "" false).2.1
      (by exact ⟨by decide, by decide⟩)).2.2,
   ((C8_validation_amended "" "" "" true "" "" "" false).2.2
      (Or.inl rfl) (by decide)).2.2⟩

/-- Lines assembled by `copyCandidate` (`witness-finder.js` lines 158-180)
before the falsy filter: the name and similarity lines are unconditional,
every optional field contributes the empty string when falsy. -/
def copyEntries (c : Candidate) : List String :=
  ["Name: " ++ c.name,
   if c.title = "" then "" else "Title: " ++ c.title,
   if c.organization = "" then "" else "Organization: " ++ c.organization,
   if c.sector = "" then "" else "Sector: " ++ c.sector,
   if c.location = "" then "" else "Location: " ++ c.location,
   match c.years_experience with
   | some y => "Years experience: " ++ toString y
   | none => "",
   "Similarity: " ++ toString c.similarity_score ++ "%",
   if c.summary = "" then "" else "Summary: " ++ c.summary,
   if c.skills.isEmpty then "" else
     "Skills: " ++ String.intercalate ", " c.skills,
   if c.links.isEmpty then "" else
     "Links: " ++ String.intercalate ", " c.links]

/-- The lines of the clipboard text: empty entries removed by
`.filter(Boolean)`. -/
def copyLines (c : Candidate) : List String :=
  (copyEntries c).filter (fun s => decide (s ≠ ""))

/-- The clipboard text of `copyCandidate`: the surviving lines joined by
newlines. -/
def copyCandidate (c : Candidate) : String :=
  String.intercalate "\n" (copyLines c)

theorem append_ne_empty_left {p : String} (v : String) (h : p ≠ "") :
    p ++ v ≠ "" := by
  intro hc
  have hdata : (p ++ v).data = [] := congrArg String.data hc
  rw [String.data_append] at hdata
  exact h (String.ext (List.append_eq_nil.mp hdata).1)

theorem filter_ne_cons_of_ne {s : String} (h : s ≠ "") (l : List String) :
    (s :: l).filter (fun x => decide (x ≠ "")) =
      s :: l.filter (fun x => decide (x ≠ "")) := by
  simp [List.filter_cons, h]

theorem filter_ne_cons_if {cond : Prop} [Decidable cond] {s : String}
    (h : s ≠ "") (l : List String) :
    ((if cond then "" else s) :: l).filter (fun x => decide (x ≠ "")) =
      (if cond then [] else [s]) ++ l.filter (fun x => decide (x ≠ "")) := by
  split_ifs with hc
  · simp [List.filter_cons]
  · simp [List.filter_cons, h]

/-- C9 counterexample: a candidate whose `name` is the empty string still
gets a `Name: ` line in the clipboard text, so the claim that every empty or
absent field is omitted fails for the name field. -/
theorem C9_counterexample :
    copyLines ⟨"x", "", "", "", "", "", none, 0, "", [], [], []⟩
        = ["Name: ", "Similarity: 0%"] ∧
      Candidate.name ⟨"x", "", "", "", "", "", none, 0, "", [], [], []⟩ = "" := by
  constructor
  · rfl
  · rfl

/-- C9 as amended: the clipboard summary preserves the field order name,
title, organization, sector, location, years experience, similarity,
summary, skills, links, omitting every optional field that is empty or
absent; the name and similarity lines are always present, even when the name
is empty. -/
theorem C9_copyCandidate_amended (c : Candidate) :
    copyLines c =
      ["Name: " ++ c.name] ++
      (if c.title = "" then [] else ["Title: " ++ c.title]) ++
      (if c.organization = "" then []
       else ["Organization: " ++ c.organization]) ++
      (if c.sector = "" then [] else ["Sector: " ++ c.sector]) ++
      (if c.location = "" then [] else ["Location: " ++ c.location]) ++
      (match c.years_experience with
       | some y => ["Years experience: " ++ toString y]
       | none => []) ++
      ["Similarity: " ++ toString c.similarity_score ++ "%"] ++
      (if c.summary = "" then [] else ["Summary: " ++ c.summary]) ++
      (if c.skills.isEmpty then []
       else ["Skills: " ++ String.intercalate ", " c.skills]) ++
      (if c.links.isEmpty then []
       else ["Links: " ++ String.intercalate ", " c.links]) := by
  have hname : ("Name: " ++ c.name) ≠ "" :=
    append_ne_empty_left c.name (by decide)
  have htitle : ("Title: " ++ c.title) ≠ "" :=
    append_ne_empty_left c.title (by decide)
  have horg : ("Organization: " ++ c.organization) ≠ "" :=
    append_ne_empty_left c.organization (by decide)
  have hsector : ("Sector: " ++ c.sector) ≠ "" :=
    append_ne_empty_left c.sector (by decide)
  have hloc : ("Location: " ++ c.location) ≠ "" :=
    append_ne_empty_left c.location (by decide)
  have hsim : ("Similarity: " ++ toString c.similarity_score ++ "%") ≠ "" := by
    intro hc
    have hdata : ("Similarity: " ++ toString c.similarity_score ++ "%").data
        = [] := congrArg String.data hc
    rw [String.data_append, String.data_append] at hdata
    have h1 := (List.append_eq_nil.mp (List.append_eq_nil.mp hdata).1).1
    exact absurd (String.ext h1) (by decide)
  have hsummary : ("Summary: " ++ c.summary) ≠ "" :=
    append_ne_empty_left c.summary (by decide)
  have hskills : ("Skills: " ++ String.intercalate ", " c.skills) ≠ "" :=
    append_ne_empty_left _ (by decide)
  have hlinks : ("Links: " ++ String.intercalate ", " c.links) ≠ "" :=
    append_ne_empty_left _ (by decide)
  rw [copyLines, copyEntries]
  rw [filter_ne_cons_of_ne hname]
  rw [filter_ne_cons_if htitle, filter_ne_cons_if horg, filter_ne_cons_if hsector,
    filter_ne_cons_if hloc]
  rcases c.years_experience with _ | y
  · rw [show ∀ l : List String,
        (("" : String) :: l).filter (fun x => decide (x ≠ "")) =
          l.filter (fun x => decide (x ≠ "")) from fun l => by
          simp [List.filter_cons]]
    rw [filter_ne_cons_of_ne hsim, filter_ne_cons_if hsummary,
      filter_ne_cons_if hskills, filter_ne_cons_if hlinks, List.filter_nil]
    simp
  · have hy : ("Years experience: " ++ toString y) ≠ "" :=
      append_ne_empty_left _ (by decide)
    rw [filter_ne_cons_of_ne hy]
    rw [filter_ne_cons_of_ne hsim, filter_ne_cons_if hsummary,
      filter_ne_cons_if hskills, filter_ne_cons_if hlinks, List.filter_nil]
    simp

/-- Tab element state: its id, the `aria-controls` reference to its panel
(absent or empty modelled as `none`), and the selected-state markers
maintained by the controller. -/
structure Tab where
  id : String
  controls : Option String
  active : Bool
  ariaSelected : Bool
  tabindex : Int
  deriving DecidableEq, Repr

/-- Panel element state: its id, the `hidden` attribute and the `active`
class. -/
structure Panel where
  id : String
  hidden : Bool
  pactive : Bool
  deriving DecidableEq, Repr

/-- A registered tab group: the tabs of one tablist, as stored in the
`tabGroups` map. -/
structure TabGroup where
  tabs : List Tab
  deriving DecidableEq, Repr

/-- The DOM as the tab controller sees it: the registered groups and the
document's panels (resolved by id). -/
structure TabDom where
  groups : List (String × TabGroup)
  panels : List Panel
  deriving DecidableEq, Repr

/-- Per-tab update performed by `activateTab`: the tab whose id matches
becomes selected and focusable, all siblings are deselected. -/
def setTabActive (tabId : String) (tab : Tab) : Tab :=
  { tab with
    active := (tab.id == tabId),
    ariaSelected := (tab.id == tabId),
    tabindex := if tab.id == tabId then 0 else -1 }

/-- The new tab states of the group after `activateTab`. -/
def activateGroup (tabs : List Tab) (tabId : String) : List Tab :=
  tabs.map (setTabActive tabId)

/-- Panel update performed for one tab: toggle the `active` class and the
`hidden` attribute to match the tab's selected state. -/
def setPanelActive (isActive : Bool) (p : Panel) : Panel :=
  { p with pactive := isActive, hidden := !isActive }

/-- `document.getElementById` mutation: update the first panel carrying the
id (ids are unique in a well-formed document). -/
def updateFirstPanel (pid : String) (f : Panel → Panel) :
    List Panel → List Panel
  | [] => []
  | p :: ps =>
    if p.id == pid then f p :: ps else p :: updateFirstPanel pid f ps

/-- Panel mutation performed by one iteration of the `tabs.forEach` loop of
`activateTab` (`part_000` lines 60-75). -/
def panelStep (tabId : String) (ps : List Panel) (tab : Tab) : List Panel :=
  match tab.controls with
  | none => ps
  | some pid => updateFirstPanel pid (setPanelActive (tab.id == tabId)) ps

/-- The document panels after the whole `tabs.forEach` loop of
`activateTab`. -/
def activatePanels (tabs : List Tab) (tabId : String) (ps : List Panel) :
    List Panel :=
  tabs.foldl (panelStep tabId) ps

/-- Embedding of `activateTab` from the shared UI controller (`part_000`
lines 55-76): an unregistered group id is a no-op; otherwise every tab of
the group is reselected against `tabId` and each resolved panel's
visibility toggled to match. -/
def activateTab (dom : TabDom) (groupId tabId : String) : TabDom :=
  match dom.groups.find? (fun g => g.1 == groupId) with
  | none => dom
  | some (_, group) =>
    { groups := dom.groups.map (fun g =>
        if g.1 == groupId then (g.1, ⟨activateGroup g.2.tabs tabId⟩) else g),
      panels := activatePanels group.tabs tabId dom.panels }

/-- Per-panel composite of all panel updates of one `activateTab` run. -/
def compPanel (tabId : String) (tabs : List Tab) (p : Panel) : Panel :=
  tabs.foldl
    (fun q tab =>
      if tab.controls == some q.id then setPanelActive (tab.id == tabId) q
      else q) p

theorem updateFirstPanel_norm {pid : String} {f : Panel → Panel}
    {ps : List Panel} (hnd : (ps.map Panel.id).Nodup) :
    updateFirstPanel pid f ps =
      ps.map (fun p => if p.id == pid then f p else p) := by
  induction ps with
  | nil => rfl
  | cons p ps ih =>
    rw [List.map_cons, List.nodup_cons] at hnd
    by_cases hp : (p.id == pid) = true
    · simp only [updateFirstPanel, if_pos hp, List.map_cons]
      have hrest : ∀ q ∈ ps, (if q.id == pid then f q else q) = q := by
        intro q hq
        have hqid : q.id ≠ pid := by
          intro hqe
          have hmem : p.id ∈ ps.map Panel.id := by
            rw [beq_iff_eq.mp hp, ← hqe]
            exact List.mem_map_of_mem Panel.id hq
          exact hnd.1 hmem
        rw [if_neg (by simp [hqid])]
      rw [List.map_congr_left hrest, List.map_id']
    · simp only [updateFirstPanel, if_neg hp, List.map_cons]
      rw [ih hnd.2]

theorem panelStep_norm {tabId : String} {ps : List Panel} {tab : Tab}
    (hnd : (ps.map Panel.id).Nodup) :
    panelStep tabId ps tab =
      ps.map (fun p =>
        if tab.controls == some p.id then setPanelActive (tab.id == tabId) p
        else p) := by
  rcases hc : tab.controls with _ | pid
  · simp only [panelStep, hc]
    have hpt : ∀ p ∈ ps,
        (if (none : Option String) == some p.id then
          setPanelActive (tab.id == tabId) p else p) = p := by
      intro p _
      rw [if_neg (by simp)]
    rw [List.map_congr_left hpt, List.map_id']
  · simp only [panelStep, hc]
    rw [updateFirstPanel_norm hnd]
    refine List.map_congr_left fun p _ => ?_
    by_cases hp : p.id = pid
    · rw [if_pos (by simp [hp]), if_pos (by simp [hp])]
    · rw [if_neg (by simp [hp]), if_neg (by simp [Ne.symm hp])]

theorem panelStep_map_id (tabId : String) (ps : List Panel) (tab : Tab) :
    (panelStep tabId ps tab).map Panel.id = ps.map Panel.id := by
  rcases hc : tab.controls with _ | pid
  · simp only [panelStep, hc]
  · simp only [panelStep, hc]
    induction ps with
    | nil => rfl
    | cons p ps ih =>
      by_cases hp : (p.id == pid) = true
      · simp only [updateFirstPanel, if_pos hp]
        rfl
      · simp only [updateFirstPanel, if_neg hp, List.map_cons]
        rw [ih]

theorem activatePanels_norm {tabs : List Tab} {tabId : String}
    {ps : List Panel} (hnd : (ps.map Panel.id).Nodup) :
    activatePanels tabs tabId ps = ps.map (compPanel tabId tabs) := by
  induction tabs generalizing ps with
  | nil =>
    rw [activatePanels, List.foldl_nil]
    exact (List.map_id' ps).symm
  | cons t ts ih =>
    have hstep : activatePanels (t :: ts) tabId ps =
        activatePanels ts tabId (panelStep tabId ps t) := rfl
    rw [hstep, ih (by rw [panelStep_map_id]; exact hnd), panelStep_norm hnd,
      List.map_map]
    rfl

theorem compPanel_cons (tabId : String) (t : Tab) (ts : List Tab) (p : Panel) :
    compPanel tabId (t :: ts) p =
      compPanel tabId ts
        (if t.controls == some p.id then setPanelActive (t.id == tabId) p
         else p) := rfl

theorem compPanel_id (tabId : String) (tabs : List Tab) (p : Panel) :
    (compPanel tabId tabs p).id = p.id := by
  induction tabs generalizing p with
  | nil => rfl
  | cons t ts ih =>
    rw [compPanel_cons]
    by_cases ht : (t.controls == some p.id) = true
    · rw [if_pos ht, ih]; rfl
    · rw [if_neg ht, ih]

theorem compPanel_not_controlled {tabId : String} {tabs : List Tab} {p : Panel}
    (h : ∀ tab ∈ tabs, tab.controls ≠ some p.id) :
    compPanel tabId tabs p = p := by
  induction tabs with
  | nil => rfl
  | cons t ts ih =>
    rw [compPanel_cons]
    have ht : (t.controls == some p.id) = false := by
      rw [beq_eq_false_iff_ne]; exact h t (List.mem_cons_self t ts)
    rw [if_neg (by simp [ht])]
    exact ih (fun tab htab => h tab (List.mem_cons_of_mem t htab))

theorem compPanel_controlled {tabId : String} {tabs : List Tab} {p : Panel}
    {u : Tab} (hnd : (tabs.filterMap Tab.controls).Nodup)
    (hu : u ∈ tabs) (huc : u.controls = some p.id) :
    compPanel tabId tabs p = setPanelActive (u.id == tabId) p := by
  induction tabs with
  | nil => cases hu
  | cons t ts ih =>
    rw [compPanel_cons]
    by_cases ht : t.controls = some p.id
    · have hnd2 : (p.id :: ts.filterMap Tab.controls).Nodup := by
        have := hnd
        simp only [List.filterMap_cons, ht] at this
        exact this
      have hno : ∀ tab ∈ ts, tab.controls ≠ some p.id := by
        intro tab htab he
        exact (List.nodup_cons.mp hnd2).1
          (List.mem_filterMap.mpr ⟨tab, htab, he⟩)
      have hut : u = t := by
        rcases List.mem_cons.mp hu with h | h
        · exact h
        · exact absurd huc (hno u h)
      rw [if_pos (by simp [ht])]
      rw [hut]
      exact compPanel_not_controlled
        (fun tab htab => by
          rw [show (setPanelActive (t.id == tabId) p).id = p.id from rfl]
          exact hno tab htab)
    · have hne : (t.controls == some p.id) = false := by
        rw [beq_eq_false_iff_ne]; exact ht
      rw [if_neg (by simp [hne])]
      have hu2 : u ∈ ts := by
        rcases List.mem_cons.mp hu with h | h
        · exact absurd (h ▸ huc) ht
        · exact h
      have hnd2 : (ts.filterMap Tab.controls).Nodup := by
        rcases hc : t.controls with _ | x
        · simpa only [List.filterMap_cons, hc] using hnd
        · have := hnd
          simp only [List.filterMap_cons, hc] at this
          exact (List.nodup_cons.mp this).2
      exact ih hnd2 hu2

theorem activeTabCount_eq_one {tabs : List Tab} {tabId : String} {tstar : Tab}
    (hnd : (tabs.map Tab.id).Nodup) (hmem : tstar ∈ tabs)
    (hid : tstar.id = tabId) :
    ((activateGroup tabs tabId).filter (fun t => t.active)).length = 1 := by
  rw [activateGroup, List.filter_map, List.length_map,
    ← List.countP_eq_length_filter]
  have hcongr : List.countP ((fun t => t.active) ∘ setTabActive tabId) tabs =
      List.countP (fun t => t.id == tabId) tabs :=
    List.countP_congr (fun t _ => by
      simp [Function.comp, setTabActive])
  rw [hcongr]
  have h2 : List.countP (fun t => t.id == tabId) tabs =
      List.count tabId (tabs.map Tab.id) := by
    rw [List.count_eq_countP, List.countP_map]
    rfl
  rw [h2]
  exact List.count_eq_one_of_mem hnd (hid ▸ List.mem_map_of_mem Tab.id hmem)

theorem activeTabCount_eq_zero {tabs : List Tab} {tabId : String}
    (h : ∀ t ∈ tabs, t.id ≠ tabId) :
    ((activateGroup tabs tabId).filter (fun t => t.active)).length = 0 := by
  rw [activateGroup, List.filter_map, List.length_map,
    ← List.countP_eq_length_filter]
  rw [List.countP_eq_zero]
  intro t ht
  simp [Function.comp, setTabActive, h t ht]

theorem visiblePanelCount_eq_one {tabs : List Tab} {tabId : String}
    {ps : List Panel} {tstar : Tab} {pid : String}
    (hndT : (tabs.map Tab.id).Nodup)
    (hndC : (tabs.filterMap Tab.controls).Nodup)
    (hndP : (ps.map Panel.id).Nodup)
    (hmem : tstar ∈ tabs) (hid : tstar.id = tabId)
    (hctl : tstar.controls = some pid) (hpan : pid ∈ ps.map Panel.id) :
    ((activatePanels tabs tabId ps).filter
      (fun p => decide (p.id ∈ tabs.filterMap Tab.controls) &&
        !p.hidden)).length = 1 := by
  rw [activatePanels_norm hndP, List.filter_map, List.length_map,
    ← List.countP_eq_length_filter]
  have hcongr : ∀ p ∈ ps,
      (((fun p => decide (p.id ∈ tabs.filterMap Tab.controls) && !p.hidden) ∘
        compPanel tabId tabs) p = true) ↔ ((p.id == pid) = true) := by
    intro p _
    simp only [Function.comp, Bool.and_eq_true, decide_eq_true_eq, beq_iff_eq,
      compPanel_id, Bool.not_eq_true']
    constructor
    · rintro ⟨hmemRef, hvis⟩
      obtain ⟨u, hu, huc⟩ := List.mem_filterMap.mp hmemRef
      rw [compPanel_controlled hndC hu huc] at hvis
      have hb : (!(u.id == tabId)) = false := hvis
      have huid : u.id = tabId := by simpa using hb
      have hueq : u = tstar :=
        List.inj_on_of_nodup_map hndT hu hmem (by rw [huid, hid])
      rw [hueq, hctl] at huc
      exact (Option.some_inj.mp huc).symm
    · intro hpid
      have huc : tstar.controls = some p.id := by rw [hctl, hpid]
      refine ⟨List.mem_filterMap.mpr ⟨tstar, hmem, huc⟩, ?_⟩
      rw [compPanel_controlled hndC hmem huc]
      simp [setPanelActive, hid]
  rw [List.countP_congr hcongr]
  have h2 : List.countP (fun p => p.id == pid) ps =
      List.count pid (ps.map Panel.id) := by
    rw [List.count_eq_countP, List.countP_map]
    rfl
  rw [h2]
  exact List.count_eq_one_of_mem hndP hpan

/-- Sample tab-controller DOM: one group `g` with two tabs, the first
active with its panel visible. -/
def tabDomSample : TabDom :=
  ⟨[("g", ⟨[⟨"t1", some "p1", true, true, 0⟩,
            ⟨"t2", some "p2", false, false, -1⟩]⟩)],
   [⟨"p1", false, true⟩, ⟨"p2", true, false⟩]⟩

/-- C2 counterexample: calling `activateTab` on a registered group with a
tab id that names no tab of the group is not a no-op — it deactivates every
tab of the group (zero tabs active afterwards), contradicting the claim that
an unknown tab id is a no-op and that exactly one tab is active after any
call. -/
theorem C2_counterexample :
    activateTab tabDomSample "g" "zzz" ≠ tabDomSample ∧
    ((activateTab tabDomSample "g" "zzz").groups.map
      (fun g => (g.2.tabs.filter (fun t => t.active)).length)) = [0] := by
  decide

/-- C2 as amended: an unknown group id is a no-op; for a registered group,
`activateTab` reselects every tab against the named id and retoggles the
resolved panels, so when the id names a tab of a well-formed group (distinct
tab ids, distinct panel references, distinct panel ids, the named tab's
panel present) exactly one tab is active and exactly one referenced panel is
visible afterwards; when the id names no tab of the group, every tab of the
group is deactivated (not a no-op). -/
theorem C2_activateTab_amended (dom : TabDom) (groupId tabId : String)
    (gr : TabGroup) (tstar : Tab) (pid : String) :
    (dom.groups.find? (fun g => g.1 == groupId) = none →
      activateTab dom groupId tabId = dom) ∧
    (dom.groups.find? (fun g => g.1 == groupId) = some (groupId, gr) →
      activateTab dom groupId tabId =
        ⟨dom.groups.map (fun g =>
          if g.1 == groupId then (g.1, ⟨activateGroup g.2.tabs tabId⟩) else g),
         activatePanels gr.tabs tabId dom.panels⟩) ∧
    ((gr.tabs.map Tab.id).Nodup → tstar ∈ gr.tabs → tstar.id = tabId →
      ((activateGroup gr.tabs tabId).filter (fun t => t.active)).length = 1) ∧
    ((gr.tabs.map Tab.id).Nodup → (gr.tabs.filterMap Tab.controls).Nodup →
      (dom.panels.map Panel.id).Nodup → tstar ∈ gr.tabs → tstar.id = tabId →
      tstar.controls = some pid → pid ∈ dom.panels.map Panel.id →
      ((activatePanels gr.tabs tabId dom.panels).filter
        (fun p => decide (p.id ∈ gr.tabs.filterMap Tab.controls) &&
          !p.hidden)).length = 1) ∧
    ((∀ t ∈ gr.tabs, t.id ≠ tabId) →
      ((activateGroup gr.tabs tabId).filter (fun t => t.active)).length = 0) := by
  refine ⟨fun h => ?_, fun h => ?_,
    fun hnd hmem hid => activeTabCount_eq_one hnd hmem hid,
    fun hndT hndC hndP hmem hid hctl hpan =>
      visiblePanelCount_eq_one hndT hndC hndP hmem hid hctl hpan,
    fun h => activeTabCount_eq_zero h⟩
  · simp [activateTab, h]
  · simp [activateTab, h]

/-- Witness for the amended C2: activating tab `t2` of the sample group
yields exactly one active tab and one visible referenced panel, and an
unknown group id is a no-op. -/
theorem C2_activateTab_amended_witness :
    activateTab tabDomSample "nope" "t2" = tabDomSample ∧
    ((activateGroup [⟨"t1", some "p1", true, true, 0⟩,
        ⟨"t2", some "p2", false, false, -1⟩] "t2").filter
      (fun t => t.active)).length = 1 ∧
    ((activatePanels [⟨"t1", some "p1", true, true, 0⟩,
        ⟨"t2", some "p2", false, false, -1⟩] "t2"
        [⟨"p1", false, true⟩, ⟨"p2", true, false⟩]).filter
      (fun p => decide (p.id ∈
        ([⟨"t1", some "p1", true, true, 0⟩,
          ⟨"t2", some "p2", false, false, -1⟩] : List Tab).filterMap
          Tab.controls) && !p.hidden)).length = 1 := by
  refine ⟨?_, ?_, ?_⟩
  · exact (C2_activateTab_amended tabDomSample "nope" "t2" ⟨[]⟩
      ⟨"t2", some "p2", false, false, -1⟩ "p2").1 (by decide)
  · exact (C2_activateTab_amended tabDomSample "g" "t2"
      ⟨[⟨"t1", some "p1", true, true, 0⟩, ⟨"t2", some "p2", false, false, -1⟩]⟩
      ⟨"t2", some "p2", false, false, -1⟩ "p2").2.2.1
      (by decide) (by decide) (by decide)
  · exact (C2_activateTab_amended tabDomSample "g" "t2"
      ⟨[⟨"t1", some "p1", true, true, 0⟩, ⟨"t2", some "p2", false, false, -1⟩]⟩
      ⟨"t2", some "p2", false, false, -1⟩ "p2").2.2.2.1
      (by decide) (by decide) (by decide) (by decide) (by decide) (by decide)
      (by decide)
